import Mathlib

/-
  Shallow embedding of the Feishu user-token lifecycle module
  (token store + renewal coordinator).

  The module keeps two process-wide `Map`s: `tokenStore` (user access tokens)
  and `appTokenCache` (application access tokens).  All arithmetic is on
  epoch milliseconds; JavaScript numbers are modelled as `Int` (all values in
  play are integers).  `Date.now()` is modelled as a clock stream
  `clock : Nat → Int`, one tick consumed per call, threaded through a
  `RunState` that also records the network calls issued.  The two remote
  endpoints are each called at most once per invocation, so their responses
  for one invocation are modelled by a fixed `Issuer` oracle.
  JavaScript string truthiness (`undefined` and `""` are falsy) is modelled
  by `truthy` on `Option String`.
-/

namespace Feishu

/-- JavaScript truthiness of an optional string: absent and `""` are falsy. -/
def truthy : Option String → Bool
  | none => false
  | some s => s ≠ ""

/-- `EXPIRY_BUFFER_MS = 5 * 60 * 1000`: entries are treated as expired five
minutes early. -/
def EXPIRY_BUFFER_MS : Int := 5 * 60 * 1000

/-- `Map.get`: first binding for the key, if any. -/
def mapGet {α : Type} : List (String × α) → String → Option α
  | [], _ => none
  | p :: rest, k => if p.1 = k then some p.2 else mapGet rest k

/-- `Map.set`: replace the binding in place, else append at the end. -/
def mapSet {α : Type} : List (String × α) → String → α → List (String × α)
  | [], k, v => [(k, v)]
  | p :: rest, k, v => if p.1 = k then (k, v) :: rest else p :: mapSet rest k v

/-- `Map.delete`: drop the first binding for the key. -/
def mapDelete {α : Type} : List (String × α) → String → List (String × α)
  | [], _ => []
  | p :: rest, k => if p.1 = k then rest else p :: mapDelete rest k

/-- `Map.has`. -/
def mapHas {α : Type} : List (String × α) → String → Bool
  | [], _ => false
  | p :: rest, k => p.1 = k || mapHas rest k

/-- `UserTokenEntry`: cached user token material. -/
structure UserTokenEntry where
  userAccessToken : String
  refreshToken : Option String
  expiresAt : Int
deriving DecidableEq, Repr

/-- `AppTokenCache`: cached application token material (the interface of the
entries of the `appTokenCache` map). -/
structure AppTokenCache where
  token : String
  expiresAt : Int
deriving DecidableEq, Repr

/-- The fields of `FeishuClientCredentials` read by the token module. -/
structure FeishuClientCredentials where
  appId : Option String
  appSecret : Option String
  accountId : Option String
deriving DecidableEq, Repr

/-- The two module-level `Map`s. -/
structure TokenState where
  tokenStore : List (String × UserTokenEntry)
  appTokenCache : List (String × AppTokenCache)
deriving DecidableEq, Repr

/-- The three error shapes the module can throw:
`UserTokenExpiredError`, `UserTokenNotFoundError`, and a plain `Error`. -/
inductive JsError where
  | userTokenExpired (message : String)
  | userTokenNotFound (message : String)
  | error (message : String)
deriving DecidableEq, Repr

/-- Default `UserTokenExpiredError` message. -/
def userTokenExpiredDefaultMsg : String :=
  "user_access_token 已过期且无法自动刷新，请提供新的 token（以 u- 开头）"

/-- Default `UserTokenNotFoundError` message. -/
def userTokenNotFoundDefaultMsg : String :=
  "未找到 user_access_token，请先提供 token（以 u- 开头）"

/-- Message of the plain `Error` thrown on missing app credentials. -/
def configErrorMsg (accountId : String) : String :=
  "Feishu credentials not configured for account \"" ++ accountId ++ "\""

/-- Message of the `UserTokenExpiredError` thrown on a rejected refresh. -/
def refreshFailMsg (code : Int) : String :=
  "refresh_token 已过期或无效（code: " ++ toString code ++
    "），请提供新的 user_access_token（以 u- 开头）"

/-- JavaScript `msg || code` used in the app-token failure message. -/
def jsMsgOrCode (msg : Option String) (code : Int) : String :=
  match msg with
  | some m => if m = "" then toString code else m
  | none => toString code

/-- Body the app-token endpoint answers with (the fields the code reads). -/
structure AppTokenResponse where
  code : Int
  msg : Option String
  app_access_token : String
  expire : Option Int
deriving DecidableEq, Repr

/-- Body the refresh endpoint answers with (the fields the code reads). -/
structure RefreshResponse where
  code : Int
  access_token : String
  refresh_token : String
  expires_in : Option Int
  refresh_expires_in : Option Int
deriving DecidableEq, Repr

/-- Responses of the two remote endpoints for one invocation (each endpoint
is contacted at most once per invocation, so a fixed pair is fully general). -/
structure Issuer where
  appTokenResp : AppTokenResponse
  refreshResp : RefreshResponse
deriving DecidableEq, Repr

/-- The two remote endpoints a run can contact. -/
inductive NetCall where
  | appTokenFetch
  | refreshFetch
deriving DecidableEq, Repr

/-- Mutable context of one run: the two maps, the clock position, and the
network calls issued so far. -/
structure RunState where
  st : TokenState
  clockIdx : Nat
  calls : List NetCall
deriving DecidableEq, Repr

/-- A run starting on store `st` with no clock ticks consumed and no calls. -/
def initRun (st : TokenState) : RunState :=
  { st := st, clockIdx := 0, calls := [] }

/-- `storeKey`: `accountId ?? "default"`. -/
def storeKey (accountId : Option String) : String :=
  accountId.getD "default"

/-- The fetch-and-cache tail of `getAppAccessToken` (lines 96–121): call the
app-token endpoint, fail on a non-zero code, otherwise cache the token with
`expiresAt = Date.now() + (expire ?? 7200) * 1000 - EXPIRY_BUFFER_MS`. -/
def fetchAppAccessToken (clock : Nat → Int) (issuer : Issuer)
    (accountId : String) (rs : RunState) : Except JsError String × RunState :=
  let rs1 : RunState := { rs with calls := rs.calls ++ [NetCall.appTokenFetch] }
  let data := issuer.appTokenResp
  if data.code ≠ 0 then
    (.error (.error ("Failed to get app_access_token: " ++ jsMsgOrCode data.msg data.code)), rs1)
  else
    let expiresIn := data.expire.getD 7200
    let now := clock rs1.clockIdx
    (.ok data.app_access_token,
      { rs1 with
        clockIdx := rs1.clockIdx + 1,
        st := { rs1.st with
          appTokenCache := mapSet rs1.st.appTokenCache accountId
            { token := data.app_access_token,
              expiresAt := now + expiresIn * 1000 - EXPIRY_BUFFER_MS } } })

/-- `getAppAccessToken` (lines 81–122): fail on missing `appId`/`appSecret`,
serve a cached unexpired app token, otherwise fetch and cache one.  The cache
key is `creds.accountId ?? "default"` (destructuring default). -/
def getAppAccessToken (clock : Nat → Int) (issuer : Issuer)
    (creds : FeishuClientCredentials) (rs : RunState) :
    Except JsError String × RunState :=
  let accountId := creds.accountId.getD "default"
  if !truthy creds.appId || !truthy creds.appSecret then
    (.error (.error (configErrorMsg accountId)), rs)
  else
    match mapGet rs.st.appTokenCache accountId with
    | some cached =>
      let now := clock rs.clockIdx
      let rs1 : RunState := { rs with clockIdx := rs.clockIdx + 1 }
      if cached.expiresAt > now then (.ok cached.token, rs1)
      else fetchAppAccessToken clock issuer accountId rs1
    | none => fetchAppAccessToken clock issuer accountId rs

/-- Result of a successful refresh exchange. -/
structure RefreshResult where
  accessToken : String
  refreshToken : String
  expiresIn : Int
  refreshExpiresIn : Int
deriving DecidableEq, Repr

/-- `refreshUserToken` (lines 126–167): acquire an app token, call the
refresh endpoint, throw `UserTokenExpiredError` on a non-zero code, else
return the new pair with `expires_in ?? 6900` and
`refresh_expires_in ?? 2592000`. -/
def refreshUserToken (clock : Nat → Int) (issuer : Issuer)
    (refreshToken : String) (creds : FeishuClientCredentials) (rs : RunState) :
    Except JsError RefreshResult × RunState :=
  match getAppAccessToken clock issuer creds rs with
  | (.error e, rs1) => (.error e, rs1)
  | (.ok _appToken, rs1) =>
    let rs2 : RunState := { rs1 with calls := rs1.calls ++ [NetCall.refreshFetch] }
    let data := issuer.refreshResp
    if data.code ≠ 0 then
      (.error (.userTokenExpired (refreshFailMsg data.code)), rs2)
    else
      (.ok { accessToken := data.access_token,
             refreshToken := data.refresh_token,
             expiresIn := data.expires_in.getD 6900,
             refreshExpiresIn := data.refresh_expires_in.getD 2592000 }, rs2)

/-- Parameters of `storeUserToken`. -/
structure StoreUserTokenParams where
  accountId : Option String
  userAccessToken : String
  refreshToken : Option String
  expiresIn : Option Int
deriving DecidableEq, Repr

/-- `storeUserToken` (lines 175–184): overwrite the entry for the key with
`expiresAt = now + (expiresIn ?? 6900) * 1000 - EXPIRY_BUFFER_MS`. -/
def storeUserToken (p : StoreUserTokenParams) (now : Int) (st : TokenState) :
    TokenState :=
  let expiresIn := p.expiresIn.getD 6900
  let key := storeKey p.accountId
  { st with
    tokenStore := mapSet st.tokenStore key
      { userAccessToken := p.userAccessToken,
        refreshToken := p.refreshToken,
        expiresAt := now + expiresIn * 1000 - EXPIRY_BUFFER_MS } }

/-- Parameters of `getUserAccessToken`. -/
structure GetUserAccessTokenParams where
  accountId : Option String
  creds : FeishuClientCredentials
deriving DecidableEq, Repr

/-- `UserTokenResult`. -/
structure UserTokenResult where
  token : String
  refreshed : Bool
deriving DecidableEq, Repr

/-- `getUserAccessToken` (lines 197–230): miss → `UserTokenNotFoundError`;
unexpired → cached token, `refreshed = false`; expired with a (truthy)
refresh token → refresh exchange, on success overwrite the entry and return
the new token with `refreshed = true`; expired otherwise →
`UserTokenExpiredError`. -/
def getUserAccessToken (clock : Nat → Int) (issuer : Issuer)
    (params : GetUserAccessTokenParams) (rs : RunState) :
    Except JsError UserTokenResult × RunState :=
  let key := storeKey params.accountId
  match mapGet rs.st.tokenStore key with
  | none => (.error (.userTokenNotFound userTokenNotFoundDefaultMsg), rs)
  | some entry =>
    let now := clock rs.clockIdx
    let rs1 : RunState := { rs with clockIdx := rs.clockIdx + 1 }
    if entry.expiresAt > now then
      (.ok { token := entry.userAccessToken, refreshed := false }, rs1)
    else if truthy entry.refreshToken then
      match refreshUserToken clock issuer (entry.refreshToken.getD "") params.creds rs1 with
      | (.error e, rs2) => (.error e, rs2)
      | (.ok result, rs2) =>
        let now2 := clock rs2.clockIdx
        (.ok { token := result.accessToken, refreshed := true },
          { rs2 with
            clockIdx := rs2.clockIdx + 1,
            st := { rs2.st with
              tokenStore := mapSet rs2.st.tokenStore key
                { userAccessToken := result.accessToken,
                  refreshToken := some result.refreshToken,
                  expiresAt := now2 + result.expiresIn * 1000 - EXPIRY_BUFFER_MS } } })
    else
      (.error (.userTokenExpired userTokenExpiredDefaultMsg), rs1)

/-- `invalidateUserToken` (lines 243–249): set the entry's `expiresAt` to 0
if it exists; no-op otherwise. -/
def invalidateUserToken (accountId : Option String) (st : TokenState) :
    TokenState :=
  let key := storeKey accountId
  match mapGet st.tokenStore key with
  | some entry =>
    { st with tokenStore := mapSet st.tokenStore key { entry with expiresAt := 0 } }
  | none => st

/-- `clearUserToken` (lines 254–260): delete one key, or clear the whole
store when `accountId` is omitted. -/
def clearUserToken (accountId : Option String) (st : TokenState) : TokenState :=
  match accountId with
  | some a => { st with tokenStore := mapDelete st.tokenStore (storeKey (some a)) }
  | none => { st with tokenStore := [] }

/-- `hasUserToken` (lines 265–267). -/
def hasUserToken (accountId : Option String) (st : TokenState) : Bool :=
  mapHas st.tokenStore (storeKey accountId)

instance {ε α : Type} [DecidableEq ε] [DecidableEq α] : DecidableEq (Except ε α) := fun x y =>
  match x, y with
  | .ok a, .ok b =>
    if h : a = b then .isTrue (by rw [h]) else .isFalse (by intro hh; cases hh; exact h rfl)
  | .ok _, .error _ => .isFalse (by intro hh; cases hh)
  | .error _, .ok _ => .isFalse (by intro hh; cases hh)
  | .error a, .error b =>
    if h : a = b then .isTrue (by rw [h]) else .isFalse (by intro hh; cases hh; exact h rfl)

/-! ### Concrete example values used by the witness theorems -/

/-- Configured example credentials. -/
def exCreds : FeishuClientCredentials :=
  { appId := some "app-id", appSecret := some "app-secret", accountId := none }

/-- An issuer accepting both the app-token call and the refresh call. -/
def exIssuer : Issuer :=
  { appTokenResp := { code := 0, msg := none, app_access_token := "APP", expire := none },
    refreshResp := { code := 0, access_token := "A2", refresh_token := "R2",
                     expires_in := none, refresh_expires_in := none } }

/-- An issuer rejecting the refresh call. -/
def exIssuerRejecting : Issuer :=
  { exIssuer with refreshResp := { exIssuer.refreshResp with code := 20037 } }

/-- A cached entry with a refresh token, expiring at t = 400. -/
def exEntry : UserTokenEntry :=
  { userAccessToken := "A1", refreshToken := some "R1", expiresAt := 400 }

/-- A cached entry without a refresh token, expiring at t = 400. -/
def exEntryNoRefresh : UserTokenEntry :=
  { userAccessToken := "A1", refreshToken := none, expiresAt := 400 }

/-- A store holding `exEntry` under the default key. -/
def exSt : TokenState :=
  { tokenStore := [("default", exEntry)], appTokenCache := [] }

/-- A store holding `exEntryNoRefresh` under the default key. -/
def exStNoRefresh : TokenState :=
  { tokenStore := [("default", exEntryNoRefresh)], appTokenCache := [] }

/-- Example call parameters with an omitted account id. -/
def exParams : GetUserAccessTokenParams :=
  { accountId := none, creds := exCreds }

/-- Credentials with no application id configured. -/
def exCredsNoAppId : FeishuClientCredentials :=
  { appId := none, appSecret := some "app-secret", accountId := none }

/-- Call parameters with unconfigured credentials. -/
def exParamsNoAppId : GetUserAccessTokenParams :=
  { accountId := none, creds := exCredsNoAppId }

/-- Call parameters with an explicit account id but credentials that carry
no account id of their own. -/
def exParamsAlice : GetUserAccessTokenParams :=
  { accountId := some "alice", creds := exCreds }

/-- A store holding `exEntry` under the explicit key "alice". -/
def exStAlice : TokenState :=
  { tokenStore := [("alice", exEntry)], appTokenCache := [] }

/-- Example deposit parameters with an omitted TTL. -/
def exStoreParams : StoreUserTokenParams :=
  { accountId := none, userAccessToken := "A1", refreshToken := some "R1",
    expiresIn := none }

/-! ### Map lemmas -/

theorem mapGet_mapSet_self {α : Type} (m : List (String × α)) (k : String) (v : α) :
    mapGet (mapSet m k v) k = some v := by
  induction m with
  | nil => simp [mapSet, mapGet]
  | cons p rest ih =>
    by_cases h : p.1 = k
    · simp [mapSet, mapGet, h]
    · simp [mapSet, mapGet, h, ih]

/-! ### Helper lemmas about the app-token step and the refresh step -/

theorem count_refreshFetch_appSingle :
    ([NetCall.appTokenFetch] : List NetCall).count NetCall.refreshFetch = 0 := by decide

theorem count_refreshFetch_refreshSingle :
    ([NetCall.refreshFetch] : List NetCall).count NetCall.refreshFetch = 1 := by decide

/-- A successful app-token fetch: returns the issuer's token, leaves the user
token store untouched, and appends exactly one `appTokenFetch` call. -/
theorem fetchAppAccessToken_ok (clock : Nat → Int) (issuer : Issuer)
    (accountId : String) (rs : RunState)
    (happ : issuer.appTokenResp.code = 0) :
    ∃ rs',
      fetchAppAccessToken clock issuer accountId rs
        = (.ok issuer.appTokenResp.app_access_token, rs')
      ∧ rs'.st.tokenStore = rs.st.tokenStore
      ∧ rs'.calls = rs.calls ++ [NetCall.appTokenFetch] := by
  unfold fetchAppAccessToken
  simp only [happ, ne_eq, not_true_eq_false, if_false, reduceIte]
  exact ⟨_, rfl, rfl, rfl⟩

/-- A successful app-token step (configured credentials, accepting issuer):
returns some token, leaves the user token store untouched, and issues no
refresh call. -/
theorem getAppAccessToken_ok (clock : Nat → Int) (issuer : Issuer)
    (creds : FeishuClientCredentials) (rs : RunState)
    (hid : truthy creds.appId = true) (hsec : truthy creds.appSecret = true)
    (happ : issuer.appTokenResp.code = 0) :
    ∃ tok rs',
      getAppAccessToken clock issuer creds rs = (.ok tok, rs')
      ∧ rs'.st.tokenStore = rs.st.tokenStore
      ∧ rs'.calls.count NetCall.refreshFetch = rs.calls.count NetCall.refreshFetch := by
  unfold getAppAccessToken
  simp only [hid, hsec, Bool.not_true, Bool.or_self, Bool.false_eq_true, if_false, reduceIte]
  cases hc : mapGet rs.st.appTokenCache (creds.accountId.getD "default") with
  | none =>
    obtain ⟨rs', heq, hstore, hcalls⟩ :=
      fetchAppAccessToken_ok clock issuer (creds.accountId.getD "default") rs happ
    refine ⟨_, rs', heq, hstore, ?_⟩
    rw [hcalls]
    simp [List.count_append, count_refreshFetch_appSingle]
  | some cached =>
    by_cases hfresh : cached.expiresAt > clock rs.clockIdx
    · exact ⟨cached.token, { rs with clockIdx := rs.clockIdx + 1 }, by simp [hfresh], rfl, rfl⟩
    · obtain ⟨rs', heq, hstore, hcalls⟩ :=
        fetchAppAccessToken_ok clock issuer (creds.accountId.getD "default")
          { rs with clockIdx := rs.clockIdx + 1 } happ
      refine ⟨issuer.appTokenResp.app_access_token, rs', ?_, hstore, ?_⟩
      · simp only [hfresh, if_false, reduceIte]
        exact heq
      rw [hcalls]
      simp [List.count_append, count_refreshFetch_appSingle]

/-- A successful refresh exchange: returns the issuer's new token material
(with TTL defaults 6900 and 2592000), leaves the user token store untouched,
and issues exactly one refresh call. -/
theorem refreshUserToken_ok (clock : Nat → Int) (issuer : Issuer)
    (rt : String) (creds : FeishuClientCredentials) (rs : RunState)
    (hid : truthy creds.appId = true) (hsec : truthy creds.appSecret = true)
    (happ : issuer.appTokenResp.code = 0)
    (href : issuer.refreshResp.code = 0) :
    ∃ rs',
      refreshUserToken clock issuer rt creds rs
        = (.ok { accessToken := issuer.refreshResp.access_token,
                 refreshToken := issuer.refreshResp.refresh_token,
                 expiresIn := issuer.refreshResp.expires_in.getD 6900,
                 refreshExpiresIn := issuer.refreshResp.refresh_expires_in.getD 2592000 }, rs')
      ∧ rs'.st.tokenStore = rs.st.tokenStore
      ∧ rs'.calls.count NetCall.refreshFetch = rs.calls.count NetCall.refreshFetch + 1 := by
  obtain ⟨tok, rs1, heq, hstore, hcount⟩ := getAppAccessToken_ok clock issuer creds rs hid hsec happ
  unfold refreshUserToken
  rw [heq]
  simp only [href, ne_eq, not_true_eq_false, if_false, reduceIte]
  refine ⟨{ rs1 with calls := rs1.calls ++ [NetCall.refreshFetch] }, rfl, hstore, ?_⟩
  simp [List.count_append, count_refreshFetch_refreshSingle, hcount]

end Feishu

namespace Feishu

/-- Core renewal lemma: on an expired entry with a (truthy) refresh token,
with configured credentials and an accepting issuer, the run returns the
issuer's new access token with `refreshed = true`, overwrites the entry
with the new pair and `expiresAt = now + (expires_in ?? 6900) * 1000 -
EXPIRY_BUFFER_MS`, and issues exactly one refresh call. -/
theorem getUserAccessToken_renewal_core (now : Int) (issuer : Issuer)
    (p : GetUserAccessTokenParams) (st : TokenState) (entry : UserTokenEntry)
    (hget : mapGet st.tokenStore (storeKey p.accountId) = some entry)
    (hexp : entry.expiresAt ≤ now)
    (hrt : truthy entry.refreshToken = true)
    (hid : truthy p.creds.appId = true) (hsec : truthy p.creds.appSecret = true)
    (happ : issuer.appTokenResp.code = 0)
    (href : issuer.refreshResp.code = 0) :
    (getUserAccessToken (fun _ => now) issuer p (initRun st)).1
      = .ok { token := issuer.refreshResp.access_token, refreshed := true }
    ∧ mapGet (getUserAccessToken (fun _ => now) issuer p (initRun st)).2.st.tokenStore
        (storeKey p.accountId)
      = some { userAccessToken := issuer.refreshResp.access_token,
               refreshToken := some issuer.refreshResp.refresh_token,
               expiresAt := now + (issuer.refreshResp.expires_in.getD 6900) * 1000
                              - EXPIRY_BUFFER_MS }
    ∧ (getUserAccessToken (fun _ => now) issuer p (initRun st)).2.calls.count
        NetCall.refreshFetch = 1 := by
  obtain ⟨rs2, heq, hstore, hcount⟩ :=
    refreshUserToken_ok (fun _ => now) issuer (entry.refreshToken.getD "") p.creds
      { st := st, clockIdx := 1, calls := [] } hid hsec happ href
  have hexp' : ¬ entry.expiresAt > now := not_lt.mpr hexp
  simp only [getUserAccessToken, initRun, hget, hexp', hrt, if_false, if_true, reduceIte,
    Nat.zero_add, heq]
  exact ⟨trivial, mapGet_mapSet_self _ _ _, by simp [hcount]⟩

end Feishu

namespace Feishu

/-- C1: for every cached entry whose `expiresAt` is not in the future
(`now ≥ expiresAt`) and which has a (truthy) refresh token, if the renewal
exchange is available and the issuer accepts it (configured app credentials,
app-token step and refresh step both report code 0), then `getUserAccessToken`
returns the issuer's new access token with `refreshed = true`, and the cache
entry for that key is wholesale replaced by the new access token, the new
refresh token, and `expiresAt = now + expiresIn * 1000 - 300000`, where
`expiresIn` is the issuer-reported TTL defaulting to 6900. -/
theorem getUserAccessToken_lazy_renewal (now : Int) (issuer : Issuer)
    (p : GetUserAccessTokenParams) (st : TokenState) (entry : UserTokenEntry)
    (hget : mapGet st.tokenStore (storeKey p.accountId) = some entry)
    (hexp : entry.expiresAt ≤ now)
    (hrt : truthy entry.refreshToken = true)
    (hid : truthy p.creds.appId = true) (hsec : truthy p.creds.appSecret = true)
    (happ : issuer.appTokenResp.code = 0)
    (href : issuer.refreshResp.code = 0) :
    (getUserAccessToken (fun _ => now) issuer p (initRun st)).1
      = .ok { token := issuer.refreshResp.access_token, refreshed := true }
    ∧ mapGet (getUserAccessToken (fun _ => now) issuer p (initRun st)).2.st.tokenStore
        (storeKey p.accountId)
      = some { userAccessToken := issuer.refreshResp.access_token,
               refreshToken := some issuer.refreshResp.refresh_token,
               expiresAt := now + (issuer.refreshResp.expires_in.getD 6900) * 1000
                              - 300000 } := by
  obtain ⟨h1, h2, h3⟩ :=
    getUserAccessToken_renewal_core now issuer p st entry hget hexp hrt hid hsec happ href
  refine ⟨h1, ?_⟩
  rw [h2]
  norm_num [EXPIRY_BUFFER_MS]

/-- Witness for C1 at a concrete input. -/
theorem getUserAccessToken_lazy_renewal_witness :
    (getUserAccessToken (fun _ => 1000) exIssuer exParams (initRun exSt)).1
      = .ok { token := exIssuer.refreshResp.access_token, refreshed := true }
    ∧ mapGet (getUserAccessToken (fun _ => 1000) exIssuer exParams (initRun exSt)).2.st.tokenStore
        (storeKey exParams.accountId)
      = some { userAccessToken := exIssuer.refreshResp.access_token,
               refreshToken := some exIssuer.refreshResp.refresh_token,
               expiresAt := 1000 + (exIssuer.refreshResp.expires_in.getD 6900) * 1000
                              - 300000 } :=
  getUserAccessToken_lazy_renewal 1000 exIssuer exParams exSt exEntry (by decide)
    (by decide) (by decide) (by decide) (by decide) (by decide) (by decide)

/-- C2: for every cached entry whose `expiresAt` is strictly in the future at
call time, `getUserAccessToken` returns exactly the cached access token with
`refreshed = false`, performs no network call, and leaves both caches
unchanged. -/
theorem getUserAccessToken_fresh_hit (clock : Nat → Int) (issuer : Issuer)
    (p : GetUserAccessTokenParams) (st : TokenState) (entry : UserTokenEntry)
    (hget : mapGet st.tokenStore (storeKey p.accountId) = some entry)
    (hfresh : clock 0 < entry.expiresAt) :
    getUserAccessToken clock issuer p (initRun st)
      = (.ok { token := entry.userAccessToken, refreshed := false },
         { st := st, clockIdx := 1, calls := [] }) := by
  simp [getUserAccessToken, initRun, hget, hfresh]

/-- Witness for C2 at a concrete input. -/
theorem getUserAccessToken_fresh_hit_witness :
    getUserAccessToken (fun _ => 100) exIssuer exParams (initRun exSt)
      = (.ok { token := exEntry.userAccessToken, refreshed := false },
         { st := exSt, clockIdx := 1, calls := [] }) :=
  getUserAccessToken_fresh_hit (fun _ => 100) exIssuer exParams exSt exEntry
    (by decide) (by decide)

end Feishu

namespace Feishu

/-- A failing app-token fetch only throws the plain `Error` shape. -/
theorem fetchAppAccessToken_error_shape (clock : Nat → Int) (issuer : Issuer)
    (accountId : String) (rs : RunState) (e : JsError) (rs' : RunState)
    (h : fetchAppAccessToken clock issuer accountId rs = (.error e, rs')) :
    ∃ m, e = .error m := by
  unfold fetchAppAccessToken at h
  by_cases hcode : issuer.appTokenResp.code = 0
  · simp [hcode] at h
  · simp only [hcode, ne_eq, not_false_eq_true, if_true, reduceIte, Prod.mk.injEq,
      Except.error.injEq] at h
    exact ⟨_, h.1.symm⟩

/-- A failing app-token step only throws the plain `Error` shape. -/
theorem getAppAccessToken_error_shape (clock : Nat → Int) (issuer : Issuer)
    (creds : FeishuClientCredentials) (rs : RunState) (e : JsError) (rs' : RunState)
    (h : getAppAccessToken clock issuer creds rs = (.error e, rs')) :
    ∃ m, e = .error m := by
  unfold getAppAccessToken at h
  by_cases hcred : (!truthy creds.appId || !truthy creds.appSecret) = true
  · simp only [hcred, if_true, reduceIte, Prod.mk.injEq, Except.error.injEq] at h
    exact ⟨_, h.1.symm⟩
  · rw [if_neg hcred] at h
    cases hm : mapGet rs.st.appTokenCache (creds.accountId.getD "default") with
    | none =>
      rw [hm] at h
      exact fetchAppAccessToken_error_shape _ _ _ _ _ _ h
    | some cached =>
      rw [hm] at h
      by_cases hfresh : cached.expiresAt > clock rs.clockIdx
      · simp [hfresh] at h
      · simp only [hfresh, if_false, reduceIte] at h
        exact fetchAppAccessToken_error_shape _ _ _ _ _ _ h

/-- A failing refresh exchange only throws the plain `Error` shape (from the
app-token step) or `UserTokenExpiredError` with the rejected-refresh message;
in particular it never throws `UserTokenNotFoundError`. -/
theorem refreshUserToken_error_shape (clock : Nat → Int) (issuer : Issuer)
    (rt : String) (creds : FeishuClientCredentials) (rs : RunState)
    (e : JsError) (rs' : RunState)
    (h : refreshUserToken clock issuer rt creds rs = (.error e, rs')) :
    (∃ m, e = .error m) ∨ e = .userTokenExpired (refreshFailMsg issuer.refreshResp.code) := by
  unfold refreshUserToken at h
  cases hg : getAppAccessToken clock issuer creds rs with
  | mk res rs1 =>
    rw [hg] at h
    cases res with
    | error e1 =>
      simp only [Prod.mk.injEq, Except.error.injEq] at h
      obtain ⟨m, hm⟩ := getAppAccessToken_error_shape clock issuer creds rs e1 rs1 hg
      exact Or.inl ⟨m, h.1 ▸ hm⟩
    | ok tok =>
      by_cases hcode : issuer.refreshResp.code = 0
      · simp [hcode] at h
      · simp only [hcode, ne_eq, not_false_eq_true, if_true, reduceIte, Prod.mk.injEq,
          Except.error.injEq] at h
        exact Or.inr h.1.symm

end Feishu

namespace Feishu

/-- C3: `getUserAccessToken` fails with `UserTokenNotFoundError` exactly when
no entry exists for the effective account key; it fails with
`UserTokenExpiredError` when an entry exists, is past `expiresAt`, and
carries no (truthy) refresh token; in both cases no network call is made and
the caches are unchanged. -/
theorem getUserAccessToken_terminal_failures (clock : Nat → Int) (issuer : Issuer)
    (p : GetUserAccessTokenParams) (st : TokenState) :
    ((∃ m, (getUserAccessToken clock issuer p (initRun st)).1
        = .error (.userTokenNotFound m))
      ↔ mapGet st.tokenStore (storeKey p.accountId) = none)
    ∧ (mapGet st.tokenStore (storeKey p.accountId) = none →
        getUserAccessToken clock issuer p (initRun st)
          = (.error (.userTokenNotFound userTokenNotFoundDefaultMsg), initRun st))
    ∧ (∀ entry, mapGet st.tokenStore (storeKey p.accountId) = some entry →
        entry.expiresAt ≤ clock 0 →
        truthy entry.refreshToken = false →
        getUserAccessToken clock issuer p (initRun st)
          = (.error (.userTokenExpired userTokenExpiredDefaultMsg),
             { st := st, clockIdx := 1, calls := [] })) := by
  refine ⟨⟨?_, ?_⟩, ?_, ?_⟩
  · rintro ⟨m, hm⟩
    by_contra hne
    obtain ⟨entry, hget⟩ := Option.ne_none_iff_exists'.mp hne
    by_cases hfresh : entry.expiresAt > clock 0
    · simp [getUserAccessToken, initRun, hget, hfresh] at hm
    · by_cases hrt : truthy entry.refreshToken
      · simp only [getUserAccessToken, initRun, hget, hfresh, hrt, if_false, if_true,
          reduceIte] at hm
        cases hres : refreshUserToken clock issuer (entry.refreshToken.getD "") p.creds
            { st := st, clockIdx := 0 + 1, calls := [] } with
        | mk res rs2 =>
          rw [hres] at hm
          cases res with
          | error e1 =>
            simp only [Except.error.injEq] at hm
            rcases refreshUserToken_error_shape _ _ _ _ _ _ _ hres with ⟨m1, hm1⟩ | hm1 <;>
              rw [hm1] at hm <;> exact JsError.noConfusion hm
          | ok result => simp at hm
      · simp [getUserAccessToken, initRun, hget, hfresh, hrt] at hm
  · intro hnone
    exact ⟨userTokenNotFoundDefaultMsg, by simp [getUserAccessToken, initRun, hnone]⟩
  · intro hnone
    simp [getUserAccessToken, initRun, hnone]
  · intro entry hget hexp hrt
    have hfresh : ¬ entry.expiresAt > clock 0 := not_lt.mpr hexp
    simp [getUserAccessToken, initRun, hget, hfresh, hrt]

/-- Witness for C3 at concrete inputs (the expired-unrenewable branch, with
the NotFound equivalence instantiated as well). -/
theorem getUserAccessToken_terminal_failures_witness :
    getUserAccessToken (fun _ => 1000) exIssuer exParams (initRun exStNoRefresh)
      = (.error (.userTokenExpired userTokenExpiredDefaultMsg),
         { st := exStNoRefresh, clockIdx := 1, calls := [] }) :=
  (getUserAccessToken_terminal_failures (fun _ => 1000) exIssuer exParams
      exStNoRefresh).2.2 exEntryNoRefresh (by decide) (by decide) (by decide)

end Feishu

namespace Feishu

/-- A rejected refresh exchange (configured credentials, app step accepted,
refresh code non-zero): throws `UserTokenExpiredError` with the
rejected-refresh message and leaves the user token store untouched. -/
theorem refreshUserToken_fail (clock : Nat → Int) (issuer : Issuer)
    (rt : String) (creds : FeishuClientCredentials) (rs : RunState)
    (hid : truthy creds.appId = true) (hsec : truthy creds.appSecret = true)
    (happ : issuer.appTokenResp.code = 0)
    (hfail : issuer.refreshResp.code ≠ 0) :
    ∃ rs',
      refreshUserToken clock issuer rt creds rs
        = (.error (.userTokenExpired (refreshFailMsg issuer.refreshResp.code)), rs')
      ∧ rs'.st.tokenStore = rs.st.tokenStore := by
  obtain ⟨tok, rs1, heq, hstore, hcount⟩ := getAppAccessToken_ok clock issuer creds rs hid hsec happ
  unfold refreshUserToken
  rw [heq]
  simp only [hfail, ne_eq, not_false_eq_true, if_true, reduceIte]
  exact ⟨_, rfl, hstore⟩

/-- C4: when the refresh exchange fails (issuer answers the refresh call with
a non-zero code), `getUserAccessToken` throws `UserTokenExpiredError` carrying
the issuer-derived diagnostic message, and the stale cache entry (access
token, refresh token and `expiresAt`) is left in the user token store
completely unchanged. -/
theorem getUserAccessToken_refresh_failure_preserves_entry (clock : Nat → Int)
    (issuer : Issuer) (p : GetUserAccessTokenParams) (st : TokenState)
    (entry : UserTokenEntry)
    (hget : mapGet st.tokenStore (storeKey p.accountId) = some entry)
    (hexp : entry.expiresAt ≤ clock 0)
    (hrt : truthy entry.refreshToken = true)
    (hid : truthy p.creds.appId = true) (hsec : truthy p.creds.appSecret = true)
    (happ : issuer.appTokenResp.code = 0)
    (hfail : issuer.refreshResp.code ≠ 0) :
    (getUserAccessToken clock issuer p (initRun st)).1
      = .error (.userTokenExpired (refreshFailMsg issuer.refreshResp.code))
    ∧ (getUserAccessToken clock issuer p (initRun st)).2.st.tokenStore = st.tokenStore
    ∧ mapGet (getUserAccessToken clock issuer p (initRun st)).2.st.tokenStore
        (storeKey p.accountId) = some entry := by
  have hfresh : ¬ entry.expiresAt > clock 0 := not_lt.mpr hexp
  obtain ⟨rs', heq, hstore⟩ :=
    refreshUserToken_fail clock issuer (entry.refreshToken.getD "") p.creds
      { st := st, clockIdx := 0 + 1, calls := [] } hid hsec happ hfail
  simp only [getUserAccessToken, initRun, hget, hfresh, hrt, if_false, if_true,
    reduceIte, heq]
  exact ⟨trivial, hstore, by rw [hstore]; exact hget⟩

/-- Witness for C4 at a concrete input. -/
theorem getUserAccessToken_refresh_failure_preserves_entry_witness :
    (getUserAccessToken (fun _ => 1000) exIssuerRejecting exParams (initRun exSt)).1
      = .error (.userTokenExpired (refreshFailMsg exIssuerRejecting.refreshResp.code))
    ∧ (getUserAccessToken (fun _ => 1000) exIssuerRejecting exParams
        (initRun exSt)).2.st.tokenStore = exSt.tokenStore
    ∧ mapGet (getUserAccessToken (fun _ => 1000) exIssuerRejecting exParams
        (initRun exSt)).2.st.tokenStore (storeKey exParams.accountId) = some exEntry :=
  getUserAccessToken_refresh_failure_preserves_entry (fun _ => 1000) exIssuerRejecting
    exParams exSt exEntry (by decide) (by decide) (by decide) (by decide) (by decide)
    (by decide) (by decide)

/-- An unconfigured app-credential pair fails immediately with the plain
configuration `Error`, before any cache read or network call. -/
theorem getAppAccessToken_config_fail (clock : Nat → Int) (issuer : Issuer)
    (creds : FeishuClientCredentials) (rs : RunState)
    (hcfg : truthy creds.appId = false ∨ truthy creds.appSecret = false) :
    getAppAccessToken clock issuer creds rs
      = (.error (.error (configErrorMsg (creds.accountId.getD "default"))), rs) := by
  have hc : (!truthy creds.appId || !truthy creds.appSecret) = true := by
    rcases hcfg with h | h <;> simp [h]
  unfold getAppAccessToken
  simp [hc]

/-- The refresh exchange propagates the configuration `Error` unchanged. -/
theorem refreshUserToken_config_fail (clock : Nat → Int) (issuer : Issuer)
    (rt : String) (creds : FeishuClientCredentials) (rs : RunState)
    (hcfg : truthy creds.appId = false ∨ truthy creds.appSecret = false) :
    refreshUserToken clock issuer rt creds rs
      = (.error (.error (configErrorMsg (creds.accountId.getD "default"))), rs) := by
  unfold refreshUserToken
  rw [getAppAccessToken_config_fail clock issuer creds rs hcfg]

/-- C5: if the application id or secret is absent (falsy) when a renewal is
attempted, the operation fails with the plain configuration `Error`, which is
distinct from both the `UserTokenExpiredError` and `UserTokenNotFoundError`
kinds. -/
theorem getUserAccessToken_config_error_distinct (clock : Nat → Int)
    (issuer : Issuer) (p : GetUserAccessTokenParams) (st : TokenState)
    (entry : UserTokenEntry)
    (hget : mapGet st.tokenStore (storeKey p.accountId) = some entry)
    (hexp : entry.expiresAt ≤ clock 0)
    (hrt : truthy entry.refreshToken = true)
    (hcfg : truthy p.creds.appId = false ∨ truthy p.creds.appSecret = false) :
    (getUserAccessToken clock issuer p (initRun st)).1
      = .error (.error (configErrorMsg (p.creds.accountId.getD "default")))
    ∧ (∀ m, (getUserAccessToken clock issuer p (initRun st)).1
        ≠ .error (.userTokenExpired m))
    ∧ (∀ m, (getUserAccessToken clock issuer p (initRun st)).1
        ≠ .error (.userTokenNotFound m)) := by
  have hfresh : ¬ entry.expiresAt > clock 0 := not_lt.mpr hexp
  have hr := refreshUserToken_config_fail clock issuer (entry.refreshToken.getD "")
    p.creds { st := st, clockIdx := 0 + 1, calls := [] } hcfg
  simp only [getUserAccessToken, initRun, hget, hfresh, hrt, if_false, if_true,
    reduceIte, hr]
  refine ⟨trivial, ?_, ?_⟩ <;> intro m h <;> exact JsError.noConfusion (Except.error.inj h)

/-- Witness for C5 at a concrete input. -/
theorem getUserAccessToken_config_error_distinct_witness :
    (getUserAccessToken (fun _ => 1000) exIssuer exParamsNoAppId (initRun exSt)).1
      = .error (.error (configErrorMsg (exParamsNoAppId.creds.accountId.getD "default"))) :=
  (getUserAccessToken_config_error_distinct (fun _ => 1000) exIssuer exParamsNoAppId
    exSt exEntry (by decide) (by decide) (by decide) (Or.inl (by decide))).1

end Feishu

namespace Feishu

/-- The app-token fetch never contacts the refresh endpoint. -/
theorem fetchAppAccessToken_count (clock : Nat → Int) (issuer : Issuer)
    (accountId : String) (rs : RunState) :
    (fetchAppAccessToken clock issuer accountId rs).2.calls.count NetCall.refreshFetch
      = rs.calls.count NetCall.refreshFetch := by
  unfold fetchAppAccessToken
  by_cases hcode : issuer.appTokenResp.code = 0 <;>
    simp [hcode, List.count_append, count_refreshFetch_appSingle]

/-- The app-token step never contacts the refresh endpoint. -/
theorem getAppAccessToken_count (clock : Nat → Int) (issuer : Issuer)
    (creds : FeishuClientCredentials) (rs : RunState) :
    (getAppAccessToken clock issuer creds rs).2.calls.count NetCall.refreshFetch
      = rs.calls.count NetCall.refreshFetch := by
  unfold getAppAccessToken
  by_cases hcred : (!truthy creds.appId || !truthy creds.appSecret) = true
  · simp [hcred]
  · rw [if_neg hcred]
    cases hm : mapGet rs.st.appTokenCache (creds.accountId.getD "default") with
    | none => exact fetchAppAccessToken_count clock issuer _ rs
    | some cached =>
      by_cases hfresh : cached.expiresAt > clock rs.clockIdx
      · simp [hfresh]
      · simp only [hfresh, if_false, reduceIte]
        exact fetchAppAccessToken_count clock issuer _ _

/-- The refresh exchange contacts the refresh endpoint at most once. -/
theorem refreshUserToken_count_le (clock : Nat → Int) (issuer : Issuer)
    (rt : String) (creds : FeishuClientCredentials) (rs : RunState) :
    (refreshUserToken clock issuer rt creds rs).2.calls.count NetCall.refreshFetch
      ≤ rs.calls.count NetCall.refreshFetch + 1 := by
  have hc := getAppAccessToken_count clock issuer creds rs
  unfold refreshUserToken
  cases hg : getAppAccessToken clock issuer creds rs with
  | mk res rs1 =>
    rw [hg] at hc
    cases res with
    | error e => simpa using Nat.le_succ_of_le (le_of_eq hc)
    | ok tok =>
      by_cases hcode : issuer.refreshResp.code = 0 <;>
        simp [hcode, List.count_append, count_refreshFetch_refreshSingle, hc]

/-- When the app-token step succeeds, the refresh exchange contacts the
refresh endpoint exactly once (whether or not the issuer accepts it). -/
theorem refreshUserToken_count_app_ok (clock : Nat → Int) (issuer : Issuer)
    (rt : String) (creds : FeishuClientCredentials) (rs : RunState)
    (hid : truthy creds.appId = true) (hsec : truthy creds.appSecret = true)
    (happ : issuer.appTokenResp.code = 0) :
    (refreshUserToken clock issuer rt creds rs).2.calls.count NetCall.refreshFetch
      = rs.calls.count NetCall.refreshFetch + 1 := by
  obtain ⟨tok, rs1, heq, hstore, hcount⟩ := getAppAccessToken_ok clock issuer creds rs hid hsec happ
  unfold refreshUserToken
  rw [heq]
  by_cases hcode : issuer.refreshResp.code = 0 <;>
    simp [hcode, List.count_append, count_refreshFetch_refreshSingle, hcount]

/-- On the expired-with-refresh-token path the network calls of the whole
invocation are exactly those of the refresh exchange. -/
theorem getUserAccessToken_calls_refresh_path (clock : Nat → Int) (issuer : Issuer)
    (p : GetUserAccessTokenParams) (st : TokenState) (entry : UserTokenEntry)
    (hget : mapGet st.tokenStore (storeKey p.accountId) = some entry)
    (hexp : ¬ entry.expiresAt > clock 0)
    (hrt : truthy entry.refreshToken = true) :
    (getUserAccessToken clock issuer p (initRun st)).2.calls
      = (refreshUserToken clock issuer (entry.refreshToken.getD "") p.creds
          { st := st, clockIdx := 0 + 1, calls := [] }).2.calls := by
  cases hres : refreshUserToken clock issuer (entry.refreshToken.getD "") p.creds
      { st := st, clockIdx := 0 + 1, calls := [] } with
  | mk res rs2 =>
    simp only [getUserAccessToken, initRun, hget, hexp, hrt, if_false, if_true,
      reduceIte, hres]
    cases res <;> rfl

/-- If the app-token step fails, the refresh exchange propagates its error
and its state unchanged; in particular no refresh call is issued. -/
theorem refreshUserToken_app_result_fail (clock : Nat → Int) (issuer : Issuer)
    (rt : String) (creds : FeishuClientCredentials) (rs rs1 : RunState) (e : JsError)
    (h : getAppAccessToken clock issuer creds rs = (.error e, rs1)) :
    refreshUserToken clock issuer rt creds rs = (.error e, rs1) := by
  unfold refreshUserToken
  rw [h]

/-- Whenever the app-token step succeeds — from the cache or from an accepted
fetch — the refresh exchange issues exactly one refresh call on top of it,
whether or not the issuer accepts the refresh. -/
theorem refreshUserToken_count_app_result_ok (clock : Nat → Int) (issuer : Issuer)
    (rt tok : String) (creds : FeishuClientCredentials) (rs rs1 : RunState)
    (h : getAppAccessToken clock issuer creds rs = (.ok tok, rs1)) :
    (refreshUserToken clock issuer rt creds rs).2.calls.count NetCall.refreshFetch
      = rs.calls.count NetCall.refreshFetch + 1 := by
  have hc := getAppAccessToken_count clock issuer creds rs
  rw [h] at hc
  unfold refreshUserToken
  rw [h]
  by_cases hcode : issuer.refreshResp.code = 0 <;>
    simp [hcode, List.count_append, count_refreshFetch_refreshSingle, hc]

/-- C6 (amended): the refresh-exchange endpoint is called at most once per
invocation of `getUserAccessToken`: exactly once on the
expired-with-refresh-token path whenever the app-token step succeeds (by any
route: sufficient credential/issuer conditions, or directly quantifying over
a successful app-step result), and zero times when there is no entry, when
the entry is fresh, when it has no (truthy) refresh token, when the app
credentials are unconfigured, and whenever the app-token step fails with any
error (missing credentials or a rejected app-token request alike); a failed
exchange is never retried within one invocation. -/
theorem getUserAccessToken_at_most_one_refresh_call (clock : Nat → Int)
    (issuer : Issuer) (p : GetUserAccessTokenParams) (st : TokenState) :
    (getUserAccessToken clock issuer p (initRun st)).2.calls.count NetCall.refreshFetch ≤ 1
    ∧ (∀ entry, mapGet st.tokenStore (storeKey p.accountId) = some entry →
        entry.expiresAt ≤ clock 0 → truthy entry.refreshToken = true →
        truthy p.creds.appId = true → truthy p.creds.appSecret = true →
        issuer.appTokenResp.code = 0 →
        (getUserAccessToken clock issuer p (initRun st)).2.calls.count
          NetCall.refreshFetch = 1)
    ∧ (mapGet st.tokenStore (storeKey p.accountId) = none →
        (getUserAccessToken clock issuer p (initRun st)).2.calls = [])
    ∧ (∀ entry, mapGet st.tokenStore (storeKey p.accountId) = some entry →
        clock 0 < entry.expiresAt →
        (getUserAccessToken clock issuer p (initRun st)).2.calls = [])
    ∧ (∀ entry, mapGet st.tokenStore (storeKey p.accountId) = some entry →
        truthy entry.refreshToken = false →
        (getUserAccessToken clock issuer p (initRun st)).2.calls = [])
    ∧ (∀ entry, mapGet st.tokenStore (storeKey p.accountId) = some entry →
        (truthy p.creds.appId = false ∨ truthy p.creds.appSecret = false) →
        (getUserAccessToken clock issuer p (initRun st)).2.calls.count
          NetCall.refreshFetch = 0)
    ∧ (∀ entry tok rs1, mapGet st.tokenStore (storeKey p.accountId) = some entry →
        entry.expiresAt ≤ clock 0 → truthy entry.refreshToken = true →
        getAppAccessToken clock issuer p.creds
            { st := st, clockIdx := 0 + 1, calls := [] } = (.ok tok, rs1) →
        (getUserAccessToken clock issuer p (initRun st)).2.calls.count
          NetCall.refreshFetch = 1)
    ∧ (∀ entry e rs1, mapGet st.tokenStore (storeKey p.accountId) = some entry →
        getAppAccessToken clock issuer p.creds
            { st := st, clockIdx := 0 + 1, calls := [] } = (.error e, rs1) →
        (getUserAccessToken clock issuer p (initRun st)).2.calls.count
          NetCall.refreshFetch = 0) := by
  refine ⟨?_, ?_, ?_, ?_, ?_, ?_, ?_, ?_⟩
  · cases hget : mapGet st.tokenStore (storeKey p.accountId) with
    | none => simp [getUserAccessToken, initRun, hget]
    | some entry =>
      by_cases hfresh : entry.expiresAt > clock 0
      · simp [getUserAccessToken, initRun, hget, hfresh]
      · by_cases hrt : truthy entry.refreshToken
        · rw [getUserAccessToken_calls_refresh_path clock issuer p st entry hget hfresh hrt]
          simpa using refreshUserToken_count_le clock issuer (entry.refreshToken.getD "")
            p.creds { st := st, clockIdx := 0 + 1, calls := [] }
        · simp [getUserAccessToken, initRun, hget, hfresh, hrt]
  · intro entry hget hexp hrt hid hsec happ
    have hfresh : ¬ entry.expiresAt > clock 0 := not_lt.mpr hexp
    rw [getUserAccessToken_calls_refresh_path clock issuer p st entry hget hfresh hrt]
    simpa using refreshUserToken_count_app_ok clock issuer (entry.refreshToken.getD "")
      p.creds { st := st, clockIdx := 0 + 1, calls := [] } hid hsec happ
  · intro hget
    simp [getUserAccessToken, initRun, hget]
  · intro entry hget hfresh
    simp [getUserAccessToken, initRun, hget, hfresh]
  · intro entry hget hrt
    by_cases hfresh : entry.expiresAt > clock 0
    · simp [getUserAccessToken, initRun, hget, hfresh]
    · simp [getUserAccessToken, initRun, hget, hfresh, hrt]
  · intro entry hget hcfg
    by_cases hfresh : entry.expiresAt > clock 0
    · simp [getUserAccessToken, initRun, hget, hfresh]
    · by_cases hrt : truthy entry.refreshToken
      · rw [getUserAccessToken_calls_refresh_path clock issuer p st entry hget hfresh hrt,
          refreshUserToken_config_fail clock issuer (entry.refreshToken.getD "") p.creds
            { st := st, clockIdx := 0 + 1, calls := [] } hcfg]
        rfl
      · simp [getUserAccessToken, initRun, hget, hfresh, hrt]
  · intro entry tok rs1 hget hexp hrt happok
    have hfresh : ¬ entry.expiresAt > clock 0 := not_lt.mpr hexp
    rw [getUserAccessToken_calls_refresh_path clock issuer p st entry hget hfresh hrt]
    simpa using refreshUserToken_count_app_result_ok clock issuer
      (entry.refreshToken.getD "") tok p.creds
      { st := st, clockIdx := 0 + 1, calls := [] } rs1 happok
  · intro entry e rs1 hget happfail
    by_cases hfresh : entry.expiresAt > clock 0
    · simp [getUserAccessToken, initRun, hget, hfresh]
    · by_cases hrt : truthy entry.refreshToken
      · rw [getUserAccessToken_calls_refresh_path clock issuer p st entry hget hfresh hrt,
          refreshUserToken_app_result_fail clock issuer (entry.refreshToken.getD "")
            p.creds { st := st, clockIdx := 0 + 1, calls := [] } rs1 e happfail]
        have hc := getAppAccessToken_count clock issuer p.creds
          { st := st, clockIdx := 0 + 1, calls := [] }
        rw [happfail] at hc
        simpa using hc
      · simp [getUserAccessToken, initRun, hget, hfresh, hrt]

/-- Witness for the amended C6 at a concrete input (renewal path, app step
succeeding: exactly one refresh call). -/
theorem getUserAccessToken_at_most_one_refresh_call_witness :
    (getUserAccessToken (fun _ => 1000) exIssuer exParams (initRun exSt)).2.calls.count
      NetCall.refreshFetch = 1 :=
  (getUserAccessToken_at_most_one_refresh_call (fun _ => 1000) exIssuer exParams
      exSt).2.1 exEntry (by decide) (by decide) (by decide) (by decide) (by decide)
    (by decide)

/-- Counterexample to C6 as stated: a concrete input on the
expired-with-refresh-token path (entry present, expired, truthy refresh
token) on which the refresh endpoint is called zero times, not exactly once,
because the app-token step fails first (missing app id). -/
theorem getUserAccessToken_refresh_once_counterexample :
    mapGet exSt.tokenStore (storeKey exParamsNoAppId.accountId) = some exEntry
    ∧ exEntry.expiresAt ≤ 1000
    ∧ truthy exEntry.refreshToken = true
    ∧ ¬ (getUserAccessToken (fun _ => 1000) exIssuer exParamsNoAppId
          (initRun exSt)).2.calls.count NetCall.refreshFetch = 1 := by
  refine ⟨by decide, by decide, by decide, ?_⟩
  decide

end Feishu

namespace Feishu

/-- C7: `storeUserToken` deposits an entry with
`expiresAt = depositTime + T * 1000 - 300000` where `T = expiresIn ?? 6900`;
consequently an entry deposited with `T = 6900` is already treated as expired
(fails the `expiresAt > now` freshness check) once `T - 300` seconds have
elapsed. -/
theorem storeUserToken_expiry_buffer (p : StoreUserTokenParams) (now : Int)
    (st : TokenState) :
    mapGet (storeUserToken p now st).tokenStore (storeKey p.accountId)
      = some { userAccessToken := p.userAccessToken,
               refreshToken := p.refreshToken,
               expiresAt := now + (p.expiresIn.getD 6900) * 1000 - 300000 }
    ∧ (p.expiresIn = none →
        mapGet (storeUserToken p now st).tokenStore (storeKey p.accountId)
          = some { userAccessToken := p.userAccessToken,
                   refreshToken := p.refreshToken,
                   expiresAt := now + 6900 * 1000 - 300000 })
    ∧ (∀ e t, mapGet (storeUserToken { p with expiresIn := some 6900 } now st).tokenStore
          (storeKey p.accountId) = some e →
        now + (6900 - 300) * 1000 ≤ t → ¬ e.expiresAt > t) := by
  refine ⟨?_, ?_, ?_⟩
  · unfold storeUserToken
    simp [mapGet_mapSet_self, EXPIRY_BUFFER_MS]
  · intro h
    unfold storeUserToken
    simp [h, mapGet_mapSet_self, EXPIRY_BUFFER_MS]
  · intro e t hget ht
    unfold storeUserToken at hget
    rw [mapGet_mapSet_self] at hget
    injection hget with h
    rw [← h]
    simp only [EXPIRY_BUFFER_MS, Option.getD_some]
    omega

/-- Witness for C7 at a concrete input: the deposited entry, and its
expiredness `T - 300` seconds after deposit. -/
theorem storeUserToken_expiry_buffer_witness :
    mapGet (storeUserToken exStoreParams 1000
        { tokenStore := [], appTokenCache := [] }).tokenStore
      (storeKey exStoreParams.accountId)
      = some { userAccessToken := exStoreParams.userAccessToken,
               refreshToken := exStoreParams.refreshToken,
               expiresAt := 1000 + (exStoreParams.expiresIn.getD 6900) * 1000 - 300000 }
    ∧ ¬ (UserTokenEntry.mk "A1" (some "R1") (1000 + 6900 * 1000 - 300000)).expiresAt
        > 1000 + (6900 - 300) * 1000 :=
  ⟨(storeUserToken_expiry_buffer exStoreParams 1000
      { tokenStore := [], appTokenCache := [] }).1,
   (storeUserToken_expiry_buffer exStoreParams 1000
      { tokenStore := [], appTokenCache := [] }).2.2
     (UserTokenEntry.mk "A1" (some "R1") (1000 + 6900 * 1000 - 300000))
     (1000 + (6900 - 300) * 1000) (by decide) (by decide)⟩

/-- C8: `invalidateUserToken` on a key with an entry sets that entry's
`expiresAt` to 0 and leaves its access and refresh tokens unchanged; it is a
no-op when no entry exists; consequently a subsequent `getUserAccessToken`
on an entry with a valid (truthy, issuer-accepted) refresh token takes the
renewal path — returning the renewed token — instead of failing NotFound. -/
theorem invalidateUserToken_preserves_tokens (a : Option String) (st : TokenState)
    (now : Int) (issuer : Issuer) (p : GetUserAccessTokenParams) :
    (∀ entry, mapGet st.tokenStore (storeKey a) = some entry →
      mapGet (invalidateUserToken a st).tokenStore (storeKey a)
        = some { entry with expiresAt := 0 })
    ∧ (mapGet st.tokenStore (storeKey a) = none → invalidateUserToken a st = st)
    ∧ (∀ entry, p.accountId = a → mapGet st.tokenStore (storeKey a) = some entry →
        truthy entry.refreshToken = true → 0 ≤ now →
        truthy p.creds.appId = true → truthy p.creds.appSecret = true →
        issuer.appTokenResp.code = 0 → issuer.refreshResp.code = 0 →
        (getUserAccessToken (fun _ => now) issuer p
            (initRun (invalidateUserToken a st))).1
          = .ok { token := issuer.refreshResp.access_token, refreshed := true }) := by
  have hinv : ∀ entry, mapGet st.tokenStore (storeKey a) = some entry →
      mapGet (invalidateUserToken a st).tokenStore (storeKey a)
        = some { entry with expiresAt := 0 } := by
    intro entry hget
    simp only [invalidateUserToken, hget]
    simp [mapGet_mapSet_self]
  refine ⟨hinv, ?_, ?_⟩
  · intro hnone
    simp only [invalidateUserToken, hnone]
  · intro entry hpa hget hrt hnow hid hsec happ href
    subst hpa
    exact (getUserAccessToken_renewal_core now issuer p
      (invalidateUserToken p.accountId st) { entry with expiresAt := 0 }
      (hinv entry hget) hnow hrt hid hsec happ href).1

/-- Witness for C8 at a concrete input. -/
theorem invalidateUserToken_preserves_tokens_witness :
    (getUserAccessToken (fun _ => 1000) exIssuer exParams
        (initRun (invalidateUserToken none exSt))).1
      = .ok { token := exIssuer.refreshResp.access_token, refreshed := true } :=
  (invalidateUserToken_preserves_tokens none exSt 1000 exIssuer exParams).2.2 exEntry
    rfl (by decide) (by decide) (by decide) (by decide) (by decide) (by decide)
    (by decide)

/-- C9 (amended): the user-token cache key is `params.accountId ?? "default"`
and the application-token cache key is `creds.accountId ?? "default"`; both
follow the same scheme (explicit identifier, else the "default" sentinel) but
are drawn from two different inputs, and they coincide whenever those two
supplied identifiers are equal — as they are at every call site in this
repository. -/
theorem cacheKeys_agree_when_account_ids_agree (p : GetUserAccessTokenParams)
    (h : p.accountId = p.creds.accountId) :
    storeKey p.accountId = p.creds.accountId.getD "default"
    ∧ storeKey p.accountId = storeKey p.creds.accountId := by
  rw [h]
  exact ⟨rfl, rfl⟩

/-- Witness for the amended C9 at a concrete input. -/
theorem cacheKeys_agree_when_account_ids_agree_witness :
    storeKey exParams.accountId = exParams.creds.accountId.getD "default"
    ∧ storeKey exParams.accountId = storeKey exParams.creds.accountId :=
  cacheKeys_agree_when_account_ids_agree exParams rfl

/-- Counterexample to C9 as stated: a concrete invocation whose user-token
cache key ("alice", from `params.accountId`) differs from its
application-token cache key ("default", from `creds.accountId`): the run
rewrites the user entry under "alice" but caches the app token under
"default", not under "alice". -/
theorem getUserAccessToken_cache_key_counterexample :
    storeKey exParamsAlice.accountId ≠ exParamsAlice.creds.accountId.getD "default"
    ∧ mapHas (getUserAccessToken (fun _ => 1000) exIssuer exParamsAlice
        (initRun exStAlice)).2.st.appTokenCache "default" = true
    ∧ mapHas (getUserAccessToken (fun _ => 1000) exIssuer exParamsAlice
        (initRun exStAlice)).2.st.appTokenCache (storeKey exParamsAlice.accountId) = false
    ∧ mapGet (getUserAccessToken (fun _ => 1000) exIssuer exParamsAlice
        (initRun exStAlice)).2.st.tokenStore "alice"
      ≠ mapGet exStAlice.tokenStore "alice" := by
  exact ⟨by decide, by decide, by decide, by decide⟩

/-- C10: for `storeUserToken`, `getUserAccessToken`, `invalidateUserToken`
and `hasUserToken`, an omitted `accountId` is equivalent to the literal
"default"; whereas `clearUserToken` with an omitted `accountId` empties the
whole store — every key, explicit ones included. -/
theorem defaultKey_alias_and_clear_all :
    (∀ (uat : String) (rt : Option String) (ei : Option Int) (now : Int)
        (st : TokenState),
      storeUserToken { accountId := none, userAccessToken := uat,
                       refreshToken := rt, expiresIn := ei } now st
        = storeUserToken { accountId := some "default", userAccessToken := uat,
                           refreshToken := rt, expiresIn := ei } now st)
    ∧ (∀ (clock : Nat → Int) (issuer : Issuer) (creds : FeishuClientCredentials)
        (rs : RunState),
      getUserAccessToken clock issuer { accountId := none, creds := creds } rs
        = getUserAccessToken clock issuer
            { accountId := some "default", creds := creds } rs)
    ∧ (∀ st, invalidateUserToken none st = invalidateUserToken (some "default") st)
    ∧ (∀ st, hasUserToken none st = hasUserToken (some "default") st)
    ∧ (∀ st, (clearUserToken none st).tokenStore = [])
    ∧ (∀ a st, hasUserToken a (clearUserToken none st) = false) := by
  exact ⟨fun _ _ _ _ _ => rfl, fun _ _ _ _ => rfl, fun _ => rfl, fun _ => rfl,
    fun _ => rfl, fun _ _ => rfl⟩

end Feishu
